import Mathlib

/-!
Verification of the event-synchronization engine
(event_synchronization: formatted_data_manager, offset_manager,
event_refine_manager, event_matching_manager, event_output_manager, utils).

Shallow embedding conventions:
* an IEEE float is modelled as `Option ℚ` (`none` = NaN, `some q` = the value);
  comparisons against NaN are `false`, matching numpy semantics;
* numpy arrays keyed by `(frame, player)` are modelled as functions
  `ℕ → ℕ → _` together with the explicit frame count `nb_frames`
  (all arrays of the feature store share that length by construction);
* Python list/array slicing (`arr[a:b]`, including negative indices) is
  modelled by `pyNorm`/`colSlice`; integer indexing (which wraps negative
  indices and raises `IndexError` out of range) by `pyGet`;
* code that can raise returns `Except Unit _` (`.error ()` = exception);
* Python's `round` (banker's rounding) is `pyRound`, `int()` on a float is
  `ratTrunc` (truncation toward zero).
-/

set_option allowUnsafeReducibility true
attribute [local semireducible] Rat.ofScientific Rat.mul Rat.inv Rat.add Rat.sub Rat.neg

deriving instance DecidableEq for Except

/-- Model of an IEEE double: `none` is NaN, `some q` a (rational) finite value. -/
abbrev OFloat := Option ℚ

/-- Comparison `x ≤ c` with numpy NaN semantics: NaN compares false. -/
def oLeB (x : OFloat) (c : ℚ) : Bool :=
  match x with
  | some v => decide (v ≤ c)
  | none => false

/-- Comparison `x > c` with numpy NaN semantics: NaN compares false. -/
def oGtB (x : OFloat) (c : ℚ) : Bool :=
  match x with
  | some v => decide (v > c)
  | none => false

/-- Comparison `x < y` with numpy NaN semantics: any NaN operand gives false. -/
def oLtB (x y : OFloat) : Bool :=
  match x, y with
  | some a, some b => decide (a < b)
  | _, _ => false

/-- Python slice-bound normalisation for a sequence of length `len`:
negative bounds count from the end, then the bound is clamped to `[0, len]`. -/
def pyNorm (len : ℕ) (i : ℤ) : ℕ :=
  (min (max (if i < 0 then i + len else i) 0) (len : ℤ)).toNat

/-- Slice `arr[a:b]` of the length-`len` sequence `f` (Python semantics). -/
def colSlice {α : Type} (f : ℕ → α) (len : ℕ) (a b : ℤ) : List α :=
  (List.range (pyNorm len b - pyNorm len a)).map (fun j => f (pyNorm len a + j))

/-- Integer indexing `arr[i]` of a length-`len` sequence (numpy semantics):
a negative index wraps once; anything else out of range raises IndexError. -/
def pyGet {α : Type} (f : ℕ → α) (len : ℕ) (i : ℤ) : Except Unit α :=
  if 0 ≤ i ∧ i < len then .ok (f i.toNat)
  else if -(len : ℤ) ≤ i ∧ i < 0 then .ok (f (i + len).toNat)
  else .error ()

/-- Python's `round` on a float with no digits: round half to even. -/
def pyRound (q : ℚ) : ℤ :=
  let f := ⌊q⌋
  let r := q - f
  if r < 1/2 then f
  else if 1/2 < r then f + 1
  else if f % 2 = 0 then f else f + 1

/-- Python's `int()` on a float: truncation toward zero. -/
def ratTrunc (q : ℚ) : ℤ :=
  if q < 0 then -⌊-q⌋ else ⌊q⌋

/-- Python's `round(x, 2)`: round half to even at two decimal places. -/
def round2 (q : ℚ) : ℚ :=
  (pyRound (q * 100) : ℚ) / 100

/-! ## Constants (constants.py and per-module constants) -/

/-- Tracking sampling rate, frames per second (constants.py). -/
def FPS : ℕ := 10

/-- Threshold on the player-ball distance for the coarse alignment signal
(constants.py, in metres). -/
def TH_DIST_PLY_BALL : ℚ := 2.5

/-- Threshold on the player-ball distance for the is_matched flag
(constants.py, in metres). -/
def TH_IS_MATCHED : ℚ := 3.5

/-- Default period start frames, constants.py: `{1: 0, 2: 27000, 3: 54000, 4: 63000}`. -/
def DEFAULT_START : ℕ → ℕ
  | 1 => 0
  | 2 => 27000
  | 3 => 54000
  | 4 => 63000
  | _ => 0

/-- Minimum passes per period by player, constants.py:
`{1: 10, 2: 10, 3: 5, 4: 5}`. -/
def MIN_PASS_PER_PERIOD : ℕ → ℕ
  | 1 => 10
  | 2 => 10
  | 3 => 5
  | 4 => 5
  | _ => 0

/-- Speed threshold of the physical criterion (constants.py, m/s). -/
def IMPOSSIBLE_SPEED_TH : ℚ := 10.5

/-- Sentinel written over NaN distances inside the matcher
(event_matching_manager.py, `NAN_DIST = 100.0`). -/
def NAN_DIST : ℚ := 100.0

/-- Matching half-window in frames (event_matching_manager.py, `OFFSET = 5`). -/
def MATCH_OFFSET : ℕ := 5

/-- Search half-window of the offset synchronizer
(offset_manager.py, `SEARCH_OFFSET = 25`). -/
def SEARCH_OFFSET : ℕ := 25

/-- Refinement proximity threshold (event_refine_manager.py, `DIST_BALL_TH = 3.0`). -/
def DIST_BALL_TH : ℚ := 3.0

/-- Detection-share threshold of the refinement window
(event_refine_manager.py, `IS_DETECTED_TH = 0.5`). -/
def IS_DETECTED_TH : ℚ := 0.5

/-- Ball-acceleration threshold of the refinement
(event_refine_manager.py, `BALL_ACC_TH = 7.0`). -/
def BALL_ACC_TH : ℚ := 7.0

/-- Lookback length of the refinement subwindow
(event_refine_manager.py, `LOCAL_OFFSET_FRAME_PAST = 5`). -/
def LOCAL_OFFSET_FRAME_PAST : ℕ := 5

/-- NaN replacement used by the output assembler
(event_output_manager.py, `NAN_TO_NUM = -9999.0`). -/
def NAN_TO_NUM : ℚ := -9999.0

/-! ## Canonical event model (events/event.py, fields used by the core) -/

/-- Generic event kinds (constants.py: PASS_EVENT, SHOT_EVENT, GENERIC_EVENT). -/
inductive GenericEventType where
  | pass
  | shot
  | generic
deriving DecidableEq

/-- Attacking side values (utils.py: LEFT_TO_RIGHT, RIGHT_TO_LEFT). -/
inductive Side where
  | left_to_right
  | right_to_left
deriving DecidableEq

/-- The opposite attacking side (utils.py, OPP_TEAM_SIDE_MAPPING). -/
def OPP_TEAM_SIDE_MAPPING : Side → Side
  | .left_to_right => .right_to_left
  | .right_to_left => .left_to_right

/-- Canonical event, restricted to the attributes the core reads or writes.
Coordinates use `none` for the source's string sentinel `'unknown'`. -/
structure Event where
  period : ℕ
  timestamp : ℚ
  generic_event_type : GenericEventType
  player_id : Option Int
  provider_player_id : Option Int
  team_id : Option Int
  x : Option ℚ
  y : Option ℚ
  provider_frame : ℤ
  skc_frame : ℤ
  offset_refine : ℤ
  to_refine : Bool
  force_to_refine : Bool
deriving DecidableEq

/-- The four flags written by the matching step
(run_is_matched_process mutates the event; we return them). -/
structure MatchFlags where
  is_matched : Bool
  is_player_detected : Bool
  has_provider_player_id : Bool
  frame_tracking_data_available : Bool
deriving DecidableEq

/-- One `(speed, vx, vy, acc)` cell of `ply_formatted_data_speed_acc`. -/
structure Kin where
  speed : OFloat
  vx : OFloat
  vy : OFloat
  acc : OFloat
deriving DecidableEq

/-- The all-NaN kinematics cell. -/
def kinNaN : Kin := ⟨none, none, none, none⟩

/-! ## Feature store (formatted_data_manager.py, FormattedTrackingManager) -/

/-- Feature store of a match: the dense arrays of FormattedTrackingManager,
the player-slot map, and the match-catalogue data read by the resolver.
All frame-indexed arrays have length `nb_frames` by construction. -/
structure FormattedTracking where
  nb_frames : ℕ
  nb_players : ℕ
  ply_formatted_data : ℕ → ℕ → OFloat × OFloat
  ply_formatted_is_detected : ℕ → ℕ → Bool
  formatted_dist_ply_ball : ℕ → ℕ → OFloat
  ball_acc_to_refine : ℕ → OFloat
  ply_id_to_idx : List (Int × ℕ)
  home_team_id : Int
  away_team_id : Int
  home_team_side : List Side
  periods_start_end_dict : List (ℕ × (ℕ × ℕ))
  team_id_to_idx_list : Int → List ℕ

/-- Player-slot lookup: Python's `event.player_id in ply_id_to_idx` /
`ply_id_to_idx[event.player_id]`; a `None` player id is never a key. -/
def lookupIdx (m : List (Int × ℕ)) (pid : Option Int) : Option ℕ :=
  match pid with
  | none => none
  | some p => List.lookup p m

/-! ## Event matcher (event_matching_manager.py, EventsMatchingManager) -/

/-- add_is_matched_attr: window `[skc-5 : min(skc+5, F)]` of the distance row
of the event's player; NaNs in the window are overwritten with `NAN_DIST`
(the slice is a view, so this mutates `formatted_dist_ply_ball`), then
is_matched is true iff some value of the window is `≤ TH_IS_MATCHED`.
Returns the mutated store and the flag. -/
def add_is_matched_attr (M : FormattedTracking) (ply_idx : ℕ) (skc : ℤ) :
    FormattedTracking × Bool :=
  let frame_start_window : ℤ := max (skc - MATCH_OFFSET) 0
  let frame_end_window : ℤ := min (skc + MATCH_OFFSET) (M.nb_frames : ℤ)
  let lo := pyNorm M.nb_frames frame_start_window
  let hi := pyNorm M.nb_frames frame_end_window
  let dist' : ℕ → ℕ → OFloat := fun f j =>
    if lo ≤ f ∧ f < hi ∧ j = ply_idx ∧ M.formatted_dist_ply_ball f j = none then some NAN_DIST
    else M.formatted_dist_ply_ball f j
  let seq := colSlice (fun f => dist' f ply_idx) M.nb_frames frame_start_window frame_end_window
  ({ M with formatted_dist_ply_ball := dist' }, seq.any (fun x => oLeB x TH_IS_MATCHED))

/-- add_is_player_detected_attr: false when `skc_frame > len(ply_formatted_data)`,
otherwise the integer-indexed read `ply_formatted_is_detected[skc_frame, ply_idx]`
(which raises when `skc_frame = len`, and wraps once when negative). -/
def add_is_player_detected_attr (M : FormattedTracking) (ply_idx : ℕ) (skc : ℤ) :
    Except Unit Bool :=
  if skc > (M.nb_frames : ℤ) then .ok false
  else pyGet (fun f => M.ply_formatted_is_detected f ply_idx) M.nb_frames skc

/-- add_frame_tracking_data_available: false when
`skc_frame > len(formatted_dist_ply_ball)`, otherwise
`np.any(np.isfinite(ply_formatted_data[skc_frame, :]))` over the players'
(x, y) samples of that frame. -/
def add_frame_tracking_data_available (M : FormattedTracking) (skc : ℤ) :
    Except Unit Bool :=
  if skc > (M.nb_frames : ℤ) then .ok false
  else do
    let row ← pyGet M.ply_formatted_data M.nb_frames skc
    .ok ((List.range M.nb_players).any (fun j => (row j).1.isSome || (row j).2.isSome))

/-- One iteration of run_is_matched_process: unmapped players get
is_matched = is_player_detected = false; mapped players get the three
computed attributes and has_provider_player_id = true. -/
def process_event (M : FormattedTracking) (event : Event) :
    Except Unit (FormattedTracking × MatchFlags) :=
  match lookupIdx M.ply_id_to_idx event.player_id with
  | none => do
    let ftda ← add_frame_tracking_data_available M event.skc_frame
    .ok (M, ⟨false, false, event.provider_player_id.isSome, ftda⟩)
  | some ply_idx => do
    let im := add_is_matched_attr M ply_idx event.skc_frame
    let ipd ← add_is_player_detected_attr im.1 ply_idx event.skc_frame
    let ftda ← add_frame_tracking_data_available im.1 event.skc_frame
    .ok (im.1, ⟨im.2, ipd, true, ftda⟩)

/-- run_is_matched_process over the event list, threading the (mutated) store. -/
def run_is_matched_process :
    FormattedTracking → List Event → Except Unit (FormattedTracking × List MatchFlags)
  | M, [] => .ok (M, [])
  | M, e :: rest => do
    let r ← process_event M e
    let rs ← run_is_matched_process r.1 rest
    .ok (rs.1, r.2 :: rs.2)

/-! ## Player kinematics (formatted_data_manager.py) -/

/-- Mask of apply_physical_criterion on one cell:
`(-0.6354 * speed + 9.1 - acc <= 0) + (speed > IMPOSSIBLE_SPEED_TH)`;
a NaN in either operand makes the corresponding comparison false. -/
def physMask (c : Kin) : Bool :=
  (match c.speed, c.acc with
   | some s, some a => decide (-(0.6354 : ℚ) * s + 9.1 - a ≤ 0)
   | _, _ => false)
  || (match c.speed with
      | some s => decide (s > IMPOSSIBLE_SPEED_TH)
      | none => false)

/-- apply_physical_criterion: masked cells get all of (speed, vx, vy, acc)
set to NaN; other cells are unchanged. -/
def apply_physical_criterion (k : ℕ → ℕ → Kin) : ℕ → ℕ → Kin :=
  fun f p => if physMask (k f p) then kinNaN else k f p

/-- First statement of add_speed_acc_in_tracking_data (event_output_manager.py):
`ply_formatted_data_speed_acc = np.nan_to_num(..., nan=NAN_TO_NUM)`,
replacing every NaN component by `NAN_TO_NUM`. -/
def ply_speed_acc_nan_to_num (k : ℕ → ℕ → Kin) : ℕ → ℕ → Kin :=
  fun f p =>
    ⟨some (((k f p).speed).getD NAN_TO_NUM),
     some (((k f p).vx).getD NAN_TO_NUM),
     some (((k f p).vy).getD NAN_TO_NUM),
     some (((k f p).acc).getD NAN_TO_NUM)⟩

/-! ## Offset synchronizer (offset_manager.py, OffsetSyncManager) -/

/-- Inputs of OffsetSyncManager: the events, the distance array of its
formatted-data manager (with the frame count), and the player-slot map. -/
structure OffsetSync where
  events : List Event
  nb_frames : ℕ
  formatted_dist_ply_ball : ℕ → ℕ → OFloat
  ply_id_to_idx : List (Int × ℕ)

/-- get_event_frame: `event_period_first_frame + int(round(event.timestamp * 10))`. -/
def get_event_frame (event : Event) (event_period_first_frame : ℤ) : ℤ :=
  event_period_first_frame + pyRound (event.timestamp * (FPS : ℚ))

/-- One cell of get_is_players_close_to_ball. Tracing the in-place updates of
the source (nan -> 1e4, `< TH` -> 1, restore nan, nan -> 0, `>= TH` -> 0):
a NaN distance becomes 0, a distance `< TH_DIST_PLY_BALL` becomes 1,
any other distance becomes 0. -/
def is_players_close_to_ball_cell (x : OFloat) : ℚ :=
  match x with
  | none => 0
  | some d => if d < TH_DIST_PLY_BALL then 1 else 0

/-- Column `ply_idx` of get_is_players_close_to_ball as a per-frame list. -/
def is_players_close_to_ball_col (X : OffsetSync) (ply_idx : ℕ) : List ℚ :=
  (List.range X.nb_frames).map
    (fun f => is_players_close_to_ball_cell (X.formatted_dist_ply_ball f ply_idx))

/-- Event frames of one player in get_ply_id_to_list_of_event_frame:
the pass events of the period by that (rostered) player, mapped through
get_event_frame at the default start. -/
def eventFramesFor (X : OffsetSync) (period : ℕ) (pid : Int) : List ℤ :=
  (X.events.filter (fun e =>
      e.period = period ∧ e.generic_event_type = .pass ∧ e.player_id = some pid)).map
    (fun e => get_event_frame e (DEFAULT_START period : ℤ))

/-- np.bincount: raises on a negative entry; otherwise counts occurrences up to
the maximum entry (the empty input gives an empty array). -/
def bincount (l : List ℤ) : Except Unit (List ℕ) :=
  if l.any (fun x => x < 0) then .error ()
  else if l.isEmpty then .ok []
  else
    let m := (l.map Int.toNat).foldr max 0
    .ok ((List.range (m + 1)).map (fun i => l.count (i : ℤ)))

/-- scipy.signal.fftconvolve in mode 'full': the exact linear convolution
(an empty operand yields an empty result). -/
def fftconvolve_full (a b : List ℚ) : List ℚ :=
  if a.isEmpty || b.isEmpty then []
  else
    (List.range (a.length + b.length - 1)).map (fun k =>
      ((List.range a.length).map (fun i =>
        if i ≤ k ∧ k - i < b.length then a.getD i 0 * b.getD (k - i) 0 else 0)).sum)

/-- np.argmax: first index of the maximum; raises on an empty array. -/
def argmaxQ : List ℚ → Except Unit ℕ
  | [] => .error ()
  | [_] => .ok 0
  | x :: y :: t =>
    match argmaxQ (y :: t) with
    | .error () => .error ()
    | .ok j => .ok (if (y :: t).getD j 0 > x then j + 1 else 0)

/-- Per-player period-start estimate of the loop body of
get_first_period_start_estimation: bincount of the player's event frames,
dropped before the default start, cross-correlated (fftconvolve against the
reversed indicator) with the player's closeness signal from the default start;
the estimate is `argmax - len(is_ply_event) + 1 + default_start`. -/
def player_estimate (X : OffsetSync) (period : ℕ) (pi : Int × ℕ) : Except Unit ℤ := do
  let counts ← bincount (eventFramesFor X period pi.1)
  let is_ply_event := counts.drop (DEFAULT_START period)
  let sig := (is_players_close_to_ball_col X pi.2).drop (DEFAULT_START period)
  let conv := fftconvolve_full sig ((is_ply_event.reverse).map (fun n => (n : ℚ)))
  let am ← argmaxQ conv
  .ok ((am : ℤ) - is_ply_event.length + 1 + (DEFAULT_START period : ℤ))

/-- Loop of get_first_period_start_estimation over `ply_id_to_idx`: players
whose pass-event count is strictly greater than `MIN_PASS_PER_PERIOD[period]`
contribute their estimate; the others are skipped. -/
def estimated_start_go (X : OffsetSync) (period : ℕ) :
    List (Int × ℕ) → Except Unit (List ℤ)
  | [] => .ok []
  | pi :: rest =>
    if (eventFramesFor X period pi.1).length > MIN_PASS_PER_PERIOD period then do
      let est ← player_estimate X period pi
      let tail ← estimated_start_go X period rest
      .ok (est :: tail)
    else estimated_start_go X period rest

/-- The `estimated_start_by_player` list of get_first_period_start_estimation. -/
def get_estimated_start_by_player (X : OffsetSync) (period : ℕ) : Except Unit (List ℤ) :=
  estimated_start_go X period X.ply_id_to_idx

/-- Monadic map of player_estimate, used to state which players contribute. -/
def mapEstimates (X : OffsetSync) (period : ℕ) :
    List (Int × ℕ) → Except Unit (List ℤ)
  | [] => .ok []
  | pi :: rest => do
    let est ← player_estimate X period pi
    let tail ← mapEstimates X period rest
    .ok (est :: tail)

/-- Insertion into a sorted list (ascending). -/
def insertSorted (x : ℤ) : List ℤ → List ℤ
  | [] => [x]
  | y :: ys => if x ≤ y then x :: y :: ys else y :: insertSorted x ys

/-- Ascending sort by insertion. -/
def sortInts (l : List ℤ) : List ℤ := l.foldr insertSorted []

/-- `int(np.percentile(l, 50))`: raises on an empty input; otherwise the median
with linear interpolation (mean of the two middle values for even length),
truncated toward zero by `int()`. -/
def percentile50 (l : List ℤ) : Except Unit ℤ :=
  if l.isEmpty then .error ()
  else
    let s := sortInts l
    let n := s.length
    if n % 2 = 1 then .ok (s.getD (n / 2) 0)
    else .ok (ratTrunc ((((s.getD (n / 2 - 1) 0) : ℚ) + ((s.getD (n / 2) 0) : ℚ)) / 2))

/-- get_first_period_start_estimation: the 50th percentile of the per-player
estimates (raising when no player passed the pass-count filter). -/
def get_first_period_start_estimation (X : OffsetSync) (period : ℕ) : Except Unit ℤ := do
  let ests ← get_estimated_start_by_player X period
  percentile50 ests

/-- get_matched_passes_list: for each pass event of the period with an informed
player id that is rostered, slice the distance row over
`[event_frame - 25 : event_frame + 25]`; if some value is `< TH_DIST_PLY_BALL`,
the matched frame is `event_frame + possession_indices_range[last such index]`
with `possession_indices_range = arange(-25, 25)`, i.e.
`event_frame - 25 + last_index`. -/
def get_matched_passes_list (X : OffsetSync) (period : ℕ)
    (estimated_period_start_frame : ℤ) : List (ℤ × Event) :=
  (X.events.filter (fun e =>
      e.period = period ∧ e.generic_event_type = .pass ∧ e.player_id.isSome)).filterMap
    (fun e =>
      match lookupIdx X.ply_id_to_idx e.player_id with
      | none => none
      | some ply_idx =>
        let event_frame := get_event_frame e estimated_period_start_frame
        let dist_ply_ball := colSlice (fun f => X.formatted_dist_ply_ball f ply_idx)
          X.nb_frames (event_frame - SEARCH_OFFSET) (event_frame + SEARCH_OFFSET)
        let short := (List.range dist_ply_ball.length).filter
          (fun j => oLtB (dist_ply_ball.getD j none) (some TH_DIST_PLY_BALL))
        match short.getLast? with
        | none => none
        | some j => some (event_frame - SEARCH_OFFSET + j, e))

/-- np.argmin: first index of the minimum (total, 0 on the empty list). -/
def argminQ : List ℚ → ℕ
  | [] => 0
  | [_] => 0
  | x :: y :: t =>
    let j := argminQ (y :: t)
    if x ≤ (y :: t).getD j 0 then 0 else j + 1

/-- Mean deviation between matched frames and event frames for a candidate
period start: `np.mean(|matched_frame - event_frame|)` over the matched passes. -/
def mean_deviation (matched_passes_list : List (ℤ × Event)) (s : ℤ) : ℚ :=
  let deltas := matched_passes_list.map
    (fun me => ((me.1 - get_event_frame me.2 s).natAbs : ℚ))
  deltas.sum / deltas.length

/-- Fine search of get_refined_period_start (offset_manager.py lines 169-200),
with the coarse estimate and the matched-pass list of the preceding two steps
as arguments. Candidates are `range(estimate - 25, estimate + 25)`; the
per-candidate deltas list is empty exactly when matched_passes_list is, so the
source's `if deltas:` guard is the emptiness test on matched_passes_list.
If no mean was collected the coarse estimate is returned unchanged; otherwise
the candidate of (first) minimal mean deviation, minus 1. -/
def get_refined_period_start (estimated_period_start_frame : ℤ)
    (matched_passes_list : List (ℤ × Event)) : ℤ :=
  let period_start_frame_to_test_arr : List ℤ :=
    (List.range (2 * SEARCH_OFFSET)).map
      (fun i : ℕ => estimated_period_start_frame - (SEARCH_OFFSET : ℤ) + (i : ℤ))
  let mean_deviations : List ℚ :=
    period_start_frame_to_test_arr.filterMap (fun s =>
      if matched_passes_list.isEmpty then none
      else some (mean_deviation matched_passes_list s))
  if mean_deviations.isEmpty then estimated_period_start_frame
  else period_start_frame_to_test_arr.getD (argminQ mean_deviations) 0 - 1

/-! ## Event refiner (event_refine_manager.py, EventRefineManager) -/

/-- get_event_frame_before: provider frame of the previous event, 0 for the
first event. -/
def get_event_frame_before (events : List Event) (idx_event : ℕ) : ℤ :=
  if 0 < idx_event then ((events.get? (idx_event - 1)).map Event.provider_frame).getD 0
  else 0

/-- get_event_frame_after: provider frame of the next event,
`len(ply_formatted_data)` for the last event. -/
def get_event_frame_after (M : FormattedTracking) (events : List Event)
    (idx_event : ℕ) : ℤ :=
  if idx_event < events.length - 1 then
    ((events.get? (idx_event + 1)).map Event.provider_frame).getD 0
  else (M.nb_frames : ℤ)

/-- get_frame_window_start_end:
start `= max(0, provider_frame - offset_refine, frame_before + 1)`,
end `= min(provider_frame + offset_refine, nb_frames, frame_after - 1)`. -/
def get_frame_window_start_end (M : FormattedTracking) (events : List Event)
    (event : Event) (idx_event : ℕ) : ℤ × ℤ :=
  let event_frame_before := get_event_frame_before events idx_event
  let event_frame_after := get_event_frame_after M events idx_event
  (max (max 0 (event.provider_frame - event.offset_refine)) (event_frame_before + 1),
   min (min (event.provider_frame + event.offset_refine) (M.nb_frames : ℤ))
     (event_frame_after - 1))

/-- check_is_detected_enough_condition:
`np.sum(window) / len(window) > IS_DETECTED_TH`. An empty window gives
`0 / 0 = nan` (with a runtime warning) and `nan > 0.5` is false. -/
def check_is_detected_enough_condition (M : FormattedTracking)
    (frame_start_window frame_end_window : ℤ) (ply_idx : ℕ) : Bool :=
  let w := colSlice (fun f => M.ply_formatted_is_detected f ply_idx) M.nb_frames
    frame_start_window frame_end_window
  if w.length = 0 then false
  else decide (((w.count true : ℚ)) / (w.length : ℚ) > IS_DETECTED_TH)

/-- get_masked_dist_ply_ball_window: mask of the frames whose distance exceeds
`DIST_BALL_TH` (a NaN distance compares false, so it is kept); `none` when
every frame of the window is masked (`np.all` of the empty window is true).
Only the mask is consumed downstream, so only it is returned. -/
def get_masked_dist_ply_ball_window (M : FormattedTracking)
    (frame_start_window frame_end_window : ℤ) (ply_idx : ℕ) : Option (List Bool) :=
  let dist_ply_ball_window := colSlice (fun f => M.formatted_dist_ply_ball f ply_idx)
    M.nb_frames frame_start_window frame_end_window
  let mask_dist_ply_ball := dist_ply_ball_window.map (fun x => oGtB x DIST_BALL_TH)
  if mask_dist_ply_ball.all (fun m => m) then none else some mask_dist_ply_ball

/-- get_masked_ball_acc_window: the ball acc-to-refine slice with the masked
rows set to NaN; `none` when everything is NaN. -/
def get_masked_ball_acc_window (M : FormattedTracking)
    (frame_start_window frame_end_window : ℤ) (mask_dist_ply_ball : List Bool) :
    Option (List OFloat) :=
  let ball_acc_window := colSlice M.ball_acc_to_refine M.nb_frames
    frame_start_window frame_end_window
  let masked := List.zipWith (fun m x => if m then none else x) mask_dist_ply_ball
    ball_acc_window
  if masked.all (fun x => x.isNone) then none else some masked

/-- Index of the last finite entry, `np.where(np.isfinite(w))[0][-1]`
(`none` when there is no finite entry, in which case the source would raise;
that case is unreachable behind get_masked_ball_acc_window). -/
def lastFiniteIdx (w : List OFloat) : Option ℕ :=
  ((List.range w.length).filter (fun i => (w.getD i none).isSome)).getLast?

/-- np.nanmax: maximum of the finite entries, NaN (`none`) if there is none. -/
def nanmaxO (w : List OFloat) : OFloat :=
  match w.filterMap id with
  | [] => none
  | v :: vs => some (vs.foldl max v)

/-- np.nanargmax: the first index whose (finite) entry equals the nanmax
(`none` on an all-NaN input, where numpy raises). -/
def nanargmaxO (w : List OFloat) : Option ℕ :=
  match nanmaxO w with
  | none => none
  | some m => some (((List.range w.length).filter
      (fun i => w.getD i none = some m)).headD 0)

/-- get_refine_idx_in_window: restrict to the subwindow
`[max(0, last_idx - LOCAL_OFFSET_FRAME_PAST), last_idx]` around the last
finite index (multiplying by the NaN mask keeps exactly that range), then
`None` when `np.nanmax < BALL_ACC_TH`, else `np.nanargmax`. -/
def get_refine_idx_in_window (ball_acc_window : List OFloat) : Option ℕ :=
  match lastFiniteIdx ball_acc_window with
  | none => none
  | some last_idx =>
    let masked := (List.range ball_acc_window.length).map (fun i =>
      if last_idx - LOCAL_OFFSET_FRAME_PAST ≤ i ∧ i ≤ last_idx then
        ball_acc_window.getD i none
      else none)
    match nanmaxO masked with
    | none => none
    | some m => if m < BALL_ACC_TH then none else nanargmaxO masked

/-- event_refinement: the per-event refinement. Returns the refined
`skc_frame` (`frame_start_window + refine_idx_in_window`), or `none` when
any of the checks aborts and `skc_frame` keeps its unrefined value.
The unmapped-player branch is unreachable: apply_events_refinement_process
skips events whose player id is not in `ply_id_to_idx`. -/
def event_refinement (M : FormattedTracking) (events : List Event)
    (event : Event) (idx_event : ℕ) : Option ℤ :=
  let w := get_frame_window_start_end M events event idx_event
  if w.2 - w.1 < 1 then none
  else
    match lookupIdx M.ply_id_to_idx event.player_id with
    | none => none
    | some ply_idx =>
      if check_is_detected_enough_condition M w.1 w.2 ply_idx = false then none
      else
        match get_masked_dist_ply_ball_window M w.1 w.2 ply_idx with
        | none => none
        | some mask_dist_ply_ball =>
          match get_masked_ball_acc_window M w.1 w.2 mask_dist_ply_ball with
          | none => none
          | some ball_acc_window =>
            match get_refine_idx_in_window ball_acc_window with
            | none => none
            | some refine_idx => some (w.1 + refine_idx)

/-! ## Attacking-side resolver (utils.py) -/

/-- np.nanmean: mean of the finite entries, NaN (`none`) when there is none. -/
def nanmean (l : List OFloat) : OFloat :=
  let vals := l.filterMap id
  if vals.isEmpty then none else some (vals.sum / vals.length)

/-- The x-positions `ply_formatted_data[period_start:period_end, idx_list, 0]`
flattened: for each frame of the (clamped, end-exclusive) slice and each
player index of the team, the x-coordinate. -/
def periodTeamXs (M : FormattedTracking) (period_start period_end : ℕ)
    (idx_list : List ℕ) : List OFloat :=
  (colSlice (fun f => f) M.nb_frames (period_start : ℤ) (period_end : ℤ)).flatMap
    (fun f => idx_list.map (fun i => (M.ply_formatted_data f i).1))

/-- get_team_id_to_attacking_side_using_tracking: per period, home is
`left_to_right` iff the home players' nanmean x is `<` the away players'
(any NaN mean makes the comparison false, so home gets `right_to_left`). -/
def get_team_id_to_attacking_side_using_tracking (M : FormattedTracking) :
    List (ℕ × List (Int × Side)) :=
  M.periods_start_end_dict.map (fun pse =>
    let home_avg_x_pos := nanmean (periodTeamXs M pse.2.1 pse.2.2
      (M.team_id_to_idx_list M.home_team_id))
    let away_avg_x_pos := nanmean (periodTeamXs M pse.2.1 pse.2.2
      (M.team_id_to_idx_list M.away_team_id))
    let home_team_side : Side :=
      if oLtB home_avg_x_pos away_avg_x_pos then .left_to_right else .right_to_left
    (pse.1, [(M.home_team_id, home_team_side),
             (M.away_team_id, OPP_TEAM_SIDE_MAPPING home_team_side)]))

/-- get_team_id_to_attacking_side_using_match_data: period `idx+1` gets the
declared `home_team_side[idx]`, the away side being the opposite. -/
def get_team_id_to_attacking_side_using_match_data (M : FormattedTracking) :
    List (ℕ × List (Int × Side)) :=
  M.home_team_side.enum.map (fun is =>
    (is.1 + 1, [(M.home_team_id, is.2),
                (M.away_team_id, OPP_TEAM_SIDE_MAPPING is.2)]))

/-- get_team_id_to_attacking_side: the declared sides when the catalogue has a
non-empty `home_team_side`, else the tracking-based fallback. -/
def get_team_id_to_attacking_side (M : FormattedTracking) :
    List (ℕ × List (Int × Side)) :=
  if M.home_team_side.isEmpty then get_team_id_to_attacking_side_using_tracking M
  else get_team_id_to_attacking_side_using_match_data M

/-- AttackingSideManager.get_event_x: `'unknown'` (here `none`) when either
coordinate is unknown; otherwise `round(-x, 2)` for a `right_to_left` team,
`round(x, 2)` for `left_to_right`, `'unknown'` when the team has no side.
Indexing the side dict by a period that is not a key raises. -/
def get_event_x (M : FormattedTracking) (event : Event) : Except Unit (Option ℚ) :=
  match event.x, event.y with
  | some x, some _ =>
    match List.lookup event.period (get_team_id_to_attacking_side M) with
    | none => .error ()
    | some d =>
      match event.team_id.bind (fun t => List.lookup t d) with
      | some .right_to_left => .ok (some (round2 (-x)))
      | some .left_to_right => .ok (some (round2 x))
      | none => .ok none
  | _, _ => .ok none

/-- AttackingSideManager.get_event_y, symmetric to get_event_x. -/
def get_event_y (M : FormattedTracking) (event : Event) : Except Unit (Option ℚ) :=
  match event.x, event.y with
  | some _, some y =>
    match List.lookup event.period (get_team_id_to_attacking_side M) with
    | none => .error ()
    | some d =>
      match event.team_id.bind (fun t => List.lookup t d) with
      | some .right_to_left => .ok (some (round2 (-y)))
      | some .left_to_right => .ok (some (round2 y))
      | none => .ok none
  | _, _ => .ok none

/-! ## Concrete instances used by the individual checks -/

/-- Base event: a period-1 generic event with no data attached. -/
def baseEvent : Event :=
  { period := 1, timestamp := 0, generic_event_type := .generic,
    player_id := none, provider_player_id := none, team_id := none,
    x := none, y := none, provider_frame := 0, skc_frame := 0,
    offset_refine := 0, to_refine := false, force_to_refine := false }

/-- Store with 2 frames and 1 rostered player (id 1, slot 0); every distance is
50 m and the player is never detected. -/
def M_c1 : FormattedTracking :=
  { nb_frames := 2, nb_players := 1,
    ply_formatted_data := fun _ _ => (some 0, some 0),
    ply_formatted_is_detected := fun _ _ => false,
    formatted_dist_ply_ball := fun _ _ => some 50,
    ball_acc_to_refine := fun _ => none,
    ply_id_to_idx := [(1, 0)],
    home_team_id := 1, away_team_id := 2, home_team_side := [],
    periods_start_end_dict := [], team_id_to_idx_list := fun _ => [] }

/-- Event of the rostered player whose skc_frame is 2, one past the last frame. -/
def ev_c1 : Event :=
  { baseEvent with player_id := some 1, provider_player_id := some 9, skc_frame := 2 }

/-- Store with 10 frames and 1 rostered player; the distance is NaN at frame 3
and 50 m elsewhere. -/
def M_c3 : FormattedTracking :=
  { nb_frames := 10, nb_players := 1,
    ply_formatted_data := fun _ _ => (some 0, some 0),
    ply_formatted_is_detected := fun _ _ => true,
    formatted_dist_ply_ball := fun f _ => if f = 3 then none else some 50,
    ball_acc_to_refine := fun _ => none,
    ply_id_to_idx := [(1, 0)],
    home_team_id := 1, away_team_id := 2, home_team_side := [],
    periods_start_end_dict := [], team_id_to_idx_list := fun _ => [] }

/-- Event of the rostered player at skc_frame 5, whose matching window covers
frame 3. -/
def ev_c3 : Event :=
  { baseEvent with player_id := some 1, provider_player_id := some 9, skc_frame := 5 }

/-- All-NaN kinematics array. -/
def k_c3 : ℕ → ℕ → Kin := fun _ _ => kinNaN

/-- Store with 10 frames and 1 rostered player, always 1 m from the ball. -/
def M_c5 : FormattedTracking :=
  { nb_frames := 10, nb_players := 1,
    ply_formatted_data := fun _ _ => (some 0, some 0),
    ply_formatted_is_detected := fun _ _ => true,
    formatted_dist_ply_ball := fun _ _ => some 1,
    ball_acc_to_refine := fun _ => none,
    ply_id_to_idx := [(1, 0)],
    home_team_id := 1, away_team_id := 2, home_team_side := [],
    periods_start_end_dict := [], team_id_to_idx_list := fun _ => [] }

/-- Event of the rostered player with skc_frame = -6: the Python slice end
`min(-6 + 5, 10) = -1` counts from the end of the array. -/
def ev_c5 : Event :=
  { baseEvent with player_id := some 1, provider_player_id := some 9, skc_frame := -6 }

/-- Event of the rostered player with skc_frame 0 (window within the claim). -/
def ev_c5w : Event :=
  { baseEvent with player_id := some 1, provider_player_id := some 9, skc_frame := 0 }

/-- Offset synchronizer input with one rostered player and no events at all. -/
def X_c2 : OffsetSync :=
  { events := [], nb_frames := 1,
    formatted_dist_ply_ball := fun _ _ => some 1,
    ply_id_to_idx := [(1, 0)] }

/-- Pass event of player 1 in period 1 at timestamp `k` seconds. -/
def c2w_pass (k : ℕ) : Event :=
  { baseEvent with
    generic_event_type := .pass
    timestamp := (k : ℚ)
    player_id := some 1 }

/-- Offset synchronizer input where player 1 has 9 pass events in period 1,
below the 10-pass filter. -/
def X_c2w : OffsetSync :=
  { events := (List.range 9).map c2w_pass, nb_frames := 5,
    formatted_dist_ply_ball := fun _ _ => some 1,
    ply_id_to_idx := [(1, 0)] }

/-- Offset synchronizer input where player 1 has exactly 10 pass events in
period 1, i.e. exactly `MIN_PASS_PER_PERIOD[1]`. -/
def X_c6 : OffsetSync :=
  { events := (List.range 10).map c2w_pass, nb_frames := 5,
    formatted_dist_ply_ball := fun _ _ => some 1,
    ply_id_to_idx := [(1, 0)] }

/-- Pass event with timestamp 0, so that its event frame is the period start
being tested. -/
def ev_c4 : Event :=
  { baseEvent with generic_event_type := .pass, player_id := some 1 }

/-- Kinematics array whose only cell has finite speed 0 and NaN acceleration
(as produced at frames 1 to 3 of any match, where the acceleration padding is
wider than the speed padding). -/
def k_c8 : ℕ → ℕ → Kin := fun _ _ => ⟨some 0, some 0, some 0, none⟩

/-- Kinematics array whose cells carry an impossible speed of 20 m/s. -/
def k_c8w : ℕ → ℕ → Kin := fun _ _ => ⟨some 20, some 1, some 1, some 0⟩

/-- Store with 30 frames, 1 rostered player always detected and 1 m from the
ball, and the ball acc-to-refine peaking at 9 m/s^2 at frame 21. -/
def M_c7 : FormattedTracking :=
  { nb_frames := 30, nb_players := 1,
    ply_formatted_data := fun _ _ => (some 0, some 0),
    ply_formatted_is_detected := fun _ _ => true,
    formatted_dist_ply_ball := fun _ _ => some 1,
    ball_acc_to_refine := fun f => some (if f = 21 then 9 else 0),
    ply_id_to_idx := [(1, 0)],
    home_team_id := 1, away_team_id := 2, home_team_side := [],
    periods_start_end_dict := [], team_id_to_idx_list := fun _ => [] }

/-- Neighbour event at provider frame 5. -/
def ev_c7a : Event := { baseEvent with provider_frame := 5 }

/-- Refined event: provider frame 15, refinement half-window 10. -/
def ev_c7 : Event :=
  { baseEvent with
    player_id := some 1
    provider_frame := 15
    offset_refine := 10
    to_refine := true }

/-- Neighbour event at provider frame 25. -/
def ev_c7b : Event := { baseEvent with provider_frame := 25 }

/-- Event list around the refined event. -/
def events_c7 : List Event := [ev_c7a, ev_c7, ev_c7b]

/-- Store with 3 frames and 1 rostered player detected only at frame 1. -/
def M_c9 : FormattedTracking :=
  { nb_frames := 3, nb_players := 1,
    ply_formatted_data := fun _ _ => (some 0, some 0),
    ply_formatted_is_detected := fun f _ => f == 1,
    formatted_dist_ply_ball := fun _ _ => some 1,
    ball_acc_to_refine := fun _ => some 9,
    ply_id_to_idx := [(1, 0)],
    home_team_id := 1, away_team_id := 2, home_team_side := [],
    periods_start_end_dict := [], team_id_to_idx_list := fun _ => [] }

/-- Refinable event whose window is frames [1, 3): the player is detected in
exactly half of it. -/
def ev_c9 : Event :=
  { baseEvent with
    player_id := some 1
    provider_frame := 1
    offset_refine := 5
    to_refine := true }

/-- Next event, at provider frame 4. -/
def ev_c9b : Event := { baseEvent with provider_frame := 4 }

/-- Event list around the half-detected event. -/
def events_c9 : List Event := [ev_c9, ev_c9b]

/-- Store for the attacking-side fallback: no declared home_team_side, one
period over frames [0, 2), home player (slot 0) at x = 10, away player
(slot 1) at x = -10. -/
def M_c10 : FormattedTracking :=
  { nb_frames := 2, nb_players := 2,
    ply_formatted_data := fun _ i => (some (if i = 0 then (10 : ℚ) else -10), some 0),
    ply_formatted_is_detected := fun _ _ => true,
    formatted_dist_ply_ball := fun _ _ => none,
    ball_acc_to_refine := fun _ => none,
    ply_id_to_idx := [(1, 0), (2, 1)],
    home_team_id := 1, away_team_id := 2, home_team_side := [],
    periods_start_end_dict := [(1, (0, 2))],
    team_id_to_idx_list := fun t => if t = 1 then [0] else if t = 2 then [1] else [] }

/-- Home-team event of period 1 at (10, 5), the worked example of the claim. -/
def ev_c10 : Event :=
  { baseEvent with team_id := some 1, x := some 10, y := some 5 }

/-- Home-team event of period 1 at (1.111, 5): rounding to two decimals shows. -/
def ev_c10c : Event :=
  { baseEvent with team_id := some 1, x := some (1111/1000), y := some 5 }

/-! ## Claim checks -/

/-- C1: an event whose skc_frame equals the frame count F (one past the last
frame) does not get its three flags set to false without crashing: the guard
of add_is_player_detected_attr tests `skc_frame > len` instead of `>=`, so the
read `ply_formatted_is_detected[F, ply_idx]` raises IndexError and the
matching step aborts. -/
theorem c1_skc_frame_at_nb_frames_raises :
    ev_c1.skc_frame = (M_c1.nb_frames : ℤ) ∧
    run_is_matched_process M_c1 [ev_c1] = .error () :=
  ⟨rfl, rfl⟩

/-- C2, counterexample: with one rostered player and no pass event at all in
period 1, the coarse estimation raises (the percentile of the empty
per-player estimate list) instead of yielding `DEFAULT_START[1]`. -/
theorem c2_counterexample :
    get_first_period_start_estimation X_c2 1 = .error () ∧
    get_first_period_start_estimation X_c2 1 ≠ .ok ((DEFAULT_START 1 : ℕ) : ℤ) :=
  ⟨rfl, by decide⟩

/-- C3, counterexample: the dist_ply_ball cell at frame 3 is NaN at build time,
yet after the matching phase has processed the single event (whose window
covers frame 3) the cell holds the numeric sentinel 100.0: the matcher's
slice is a view and the write `seq[isnan] = NAN_DIST` mutates the store. -/
theorem c3_counterexample :
    M_c3.formatted_dist_ply_ball 3 0 = none ∧
    (run_is_matched_process M_c3 [ev_c3]).map
      (fun r => r.1.formatted_dist_ply_ball 3 0) = .ok (some NAN_DIST) :=
  ⟨rfl, by decide⟩

/-- C5, counterexample: for the rostered event with skc_frame = -6 the claim's
clamped window `[max(skc-5,0), min(skc+5,F))` is empty, so the claim forces
is_matched = false; the code computes the Python slice `[0:-1]`, i.e. frames
0 to F-2, and finds the player within 3.5 m, so is_matched is true. -/
theorem c5_counterexample :
    (process_event M_c5 ev_c5).map (fun r => r.2.is_matched) = .ok true ∧
    min (ev_c5.skc_frame + (MATCH_OFFSET : ℤ)) (M_c5.nb_frames : ℤ) ≤
      max (ev_c5.skc_frame - (MATCH_OFFSET : ℤ)) 0 :=
  ⟨by decide, by decide⟩

/-- C6, counterexample: a player with exactly `MIN_PASS_PER_PERIOD[1] = 10`
pass events in period 1 (so "at least" the minimum) contributes no estimate:
the filter keeps only players with strictly more than the minimum, and the
estimate list stays empty. -/
theorem c6_counterexample :
    (eventFramesFor X_c6 1 1).length = 10 ∧
    MIN_PASS_PER_PERIOD 1 ≤ 10 ∧
    get_estimated_start_by_player X_c6 1 = .ok [] :=
  ⟨by decide, by decide, rfl⟩

/-- C8, counterexample: a cell with finite speed 0 and NaN acceleration (as the
padding of compute_speeds_acc produces at frames 1 to 3) passes the physical
criterion unchanged, so after apply_physical_criterion its speed is finite
while `-0.6354 * speed + 9.1 - acc` is NaN, not a positive number. -/
theorem c8_counterexample :
    ¬ (∀ f p s, ((apply_physical_criterion k_c8) f p).speed = some s →
        s ≤ IMPOSSIBLE_SPEED_TH ∧
        ∃ a, ((apply_physical_criterion k_c8) f p).acc = some a ∧
          -(0.6354 : ℚ) * s + 9.1 - a > 0) := by
  intro h
  obtain ⟨-, a, ha, -⟩ := h 0 0 0 (by decide)
  have hacc : ((apply_physical_criterion k_c8) 0 0).acc = none := by decide
  rw [hacc] at ha
  exact Option.noConfusion ha

/-- C9, counterexample: a window of two frames with the player detected in
exactly one of them (a detection share of exactly 50%) is rejected by
check_is_detected_enough_condition, although the claim says a share of at
least 50% proceeds. -/
theorem c9_counterexample :
    check_is_detected_enough_condition M_c9 1 3 0 = false ∧
    (colSlice (fun f => M_c9.ply_formatted_is_detected f 0) M_c9.nb_frames 1 3).length ≤
      2 * (colSlice (fun f => M_c9.ply_formatted_is_detected f 0) M_c9.nb_frames 1 3).count
        true :=
  ⟨by decide, by decide⟩

/-- C10, counterexample: the home team attacks right_to_left in period 1 (its
tracking mean x is larger), and the event at x = 1.111 is projected to
-1.11, not to -x = -1.111: get_event_x rounds to two decimal places. -/
theorem c10_counterexample :
    get_event_x M_c10 ev_c10c = .ok (some (-(111/100 : ℚ))) ∧
    (-(111/100 : ℚ)) ≠ -(1111/1000 : ℚ) :=
  ⟨by decide, by decide⟩

/-- Helper: when every player of the list fails the strict pass-count filter,
the estimate loop collects nothing. -/
theorem estimated_start_go_all_filtered (X : OffsetSync) (period : ℕ) :
    ∀ l : List (Int × ℕ),
      l.all (fun pi =>
        decide ((eventFramesFor X period pi.1).length ≤ MIN_PASS_PER_PERIOD period)) = true →
      estimated_start_go X period l = .ok [] := by
  intro l
  induction l with
  | nil => intro _; rfl
  | cons pi rest ih =>
    intro h
    rw [List.all_cons, Bool.and_eq_true] at h
    have hle := of_decide_eq_true h.1
    simp only [estimated_start_go]
    rw [if_neg (by omega)]
    exact ih h.2

/-- C2 (amended): when no rostered player has strictly more than
`MIN_PASS_PER_PERIOD[period]` pass events in the period (in particular, a
period with zero pass events), the coarse estimation raises — the percentile
of the empty per-player estimate list — instead of yielding the default
start. -/
theorem c2_no_candidate_players_raises (X : OffsetSync) (period : ℕ)
    (h : X.ply_id_to_idx.all (fun pi =>
      decide ((eventFramesFor X period pi.1).length ≤ MIN_PASS_PER_PERIOD period)) = true) :
    get_first_period_start_estimation X period = .error () := by
  unfold get_first_period_start_estimation get_estimated_start_by_player
  rw [estimated_start_go_all_filtered X period X.ply_id_to_idx h]
  rfl

/-- C2, witness: a player with 9 period-1 pass events is under the filter, and
the coarse estimation raises. -/
theorem c2_witness : get_first_period_start_estimation X_c2w 1 = .error () :=
  c2_no_candidate_players_raises X_c2w 1 (by decide)

/-- C6 (amended): the per-player estimate list is exactly the monadic map of
the per-player estimator over the players whose pass-event count is strictly
greater than `MIN_PASS_PER_PERIOD[period]`: a rostered player contributes an
estimate iff their count is strictly above the minimum; a count equal to the
minimum is discarded. -/
theorem c6_contributes_iff_strictly_above_min (X : OffsetSync) (period : ℕ) :
    get_estimated_start_by_player X period =
      mapEstimates X period (X.ply_id_to_idx.filter (fun pi =>
        decide ((eventFramesFor X period pi.1).length > MIN_PASS_PER_PERIOD period))) := by
  unfold get_estimated_start_by_player
  induction X.ply_id_to_idx with
  | nil => rfl
  | cons pi rest ih =>
    by_cases hq : (eventFramesFor X period pi.1).length > MIN_PASS_PER_PERIOD period
    · simp only [estimated_start_go, if_pos hq, List.filter_cons, decide_eq_true hq,
        if_pos rfl, mapEstimates, ih]
    · simp only [estimated_start_go, if_neg hq, List.filter_cons,
        decide_eq_false hq, Bool.false_eq_true, if_neg, ih]
      rw [if_neg (by simp)]

/-- C8 (amended): after apply_physical_criterion, every cell with finite speed
has speed at most `IMPOSSIBLE_SPEED_TH`, and whenever its acceleration is also
finite, `-0.6354 * speed + 9.1 - acc > 0` (with NaN acceleration — as the
padding produces near the array ends — the criterion value is NaN and no
inequality holds); a masked cell has all four components set to NaN. -/
theorem c8_physical_criterion (k : ℕ → ℕ → Kin) (f p : ℕ) :
    (∀ s, ((apply_physical_criterion k) f p).speed = some s →
      s ≤ IMPOSSIBLE_SPEED_TH ∧
      ∀ a, ((apply_physical_criterion k) f p).acc = some a →
        -(0.6354 : ℚ) * s + 9.1 - a > 0)
    ∧ (physMask (k f p) = true → (apply_physical_criterion k) f p = kinNaN) := by
  constructor
  · intro s hs
    by_cases hm : physMask (k f p) = true
    · have hc : (apply_physical_criterion k) f p = kinNaN := by
        unfold apply_physical_criterion
        rw [if_pos hm]
      rw [hc] at hs
      exact absurd hs (by simp [kinNaN])
    · rw [Bool.not_eq_true] at hm
      have hc : (apply_physical_criterion k) f p = k f p := by
        unfold apply_physical_criterion
        rw [hm]
        simp
      rw [hc] at hs ⊢
      unfold physMask at hm
      rw [hs] at hm
      rw [Bool.or_eq_false_iff] at hm
      constructor
      · have := hm.2
        simp only [decide_eq_false_iff_not, not_lt] at this
        exact this
      · intro a ha
        rw [ha] at hm
        have := hm.1
        simp only [decide_eq_false_iff_not, not_le] at this
        linarith
  · intro hm
    unfold apply_physical_criterion
    rw [if_pos hm]

/-- C8, witness: a cell with speed 20 m/s is masked and zeroed out to NaN. -/
theorem c8_witness :
    physMask (k_c8w 0 0) = true ∧ (apply_physical_criterion k_c8w) 0 0 = kinNaN :=
  ⟨by decide, (c8_physical_criterion k_c8w 0 0).2 (by decide)⟩

/-- C9 (amended): the detection check passes iff the player is detected in
strictly more than 50% of the window frames (a share of exactly one half is
rejected), and an event whose window fails the check is not refined: its
skc_frame keeps the unrefined value. -/
theorem c9_detection_check_strict :
    (∀ (M : FormattedTracking) (a b : ℤ) (p : ℕ),
      (check_is_detected_enough_condition M a b p = true ↔
        (colSlice (fun f => M.ply_formatted_is_detected f p) M.nb_frames a b).length <
          2 * (colSlice (fun f => M.ply_formatted_is_detected f p) M.nb_frames a b).count
            true))
    ∧ (∀ (M : FormattedTracking) (events : List Event) (e : Event) (idx p : ℕ),
      lookupIdx M.ply_id_to_idx e.player_id = some p →
      check_is_detected_enough_condition M
        (get_frame_window_start_end M events e idx).1
        (get_frame_window_start_end M events e idx).2 p = false →
      event_refinement M events e idx = none) := by
  constructor
  · intro M a b p
    unfold check_is_detected_enough_condition
    set w := colSlice (fun f => M.ply_formatted_is_detected f p) M.nb_frames a b with hw
    by_cases h0 : w.length = 0
    · rw [if_pos h0]
      have hc : w.count true ≤ w.length := List.count_le_length _ _
      constructor
      · intro h; exact absurd h (by simp)
      · intro h; omega
    · rw [if_neg h0]
      rw [decide_eq_true_eq]
      have hn : (0 : ℚ) < (w.length : ℚ) := by
        have : 0 < w.length := Nat.pos_of_ne_zero h0
        exact_mod_cast this
      rw [gt_iff_lt, show IS_DETECTED_TH = 1/2 from rfl, div_lt_div_iff₀ (by norm_num) hn]
      constructor
      · intro h
        have : (w.length : ℚ) < 2 * (w.count true : ℚ) := by linarith
        exact_mod_cast this
      · intro h
        have : (w.length : ℚ) < 2 * (w.count true : ℚ) := by exact_mod_cast h
        linarith
  · intro M events e idx p hlk hchk
    simp only [event_refinement]
    split
    · rfl
    · simp only [hlk]
      rw [if_pos hchk]

/-- C9, witness: the event over window [1, 3) with a detection share of one
half fails the check (2 < 2·1 is false) and is left unrefined. -/
theorem c9_witness :
    (check_is_detected_enough_condition M_c9 1 3 0 = true ↔
      (colSlice (fun f => M_c9.ply_formatted_is_detected f 0) M_c9.nb_frames 1 3).length <
        2 * (colSlice (fun f => M_c9.ply_formatted_is_detected f 0) M_c9.nb_frames 1 3).count
          true)
    ∧ event_refinement M_c9 events_c9 ev_c9 0 = none :=
  ⟨c9_detection_check_strict.1 M_c9 1 3 0,
   c9_detection_check_strict.2 M_c9 events_c9 ev_c9 0 0 (by decide) (by decide)⟩

/-- Helper: reading an in-range element of a mapped range. -/
theorem getD_rangeMap {α : Type} (f : ℕ → α) (n i : ℕ) (d : α) (h : i < n) :
    ((List.range n).map f).getD i d = f i := by
  have h1 : ((List.range n).map f).get? i = some (f i) := by
    rw [List.get?_map, List.get?_range h]
    rfl
  rw [List.getD, h1]
  rfl

/-- Helper: filterMap of an always-some function is a map. -/
theorem filterMap_some_comp {α β : Type} (F : α → β) (l : List α) :
    l.filterMap (fun x => some (F x)) = l.map F := by
  induction l with
  | nil => rfl
  | cons a t ih =>
    rw [List.filterMap_cons]
    rw [ih]
    rfl

/-- Helper: np.argmin returns an in-range index of a minimal value (the first
one). -/
theorem argminQ_spec : ∀ (l : List ℚ), l ≠ [] →
    argminQ l < l.length ∧ ∀ j, j < l.length → l.getD (argminQ l) 0 ≤ l.getD j 0 := by
  intro l
  induction l with
  | nil => intro h; exact absurd rfl h
  | cons x xs ih =>
    intro _
    cases xs with
    | nil =>
      refine ⟨?_, ?_⟩
      · have h0 : argminQ [x] = 0 := rfl
        rw [h0]
        simp
      intro j hj
      have hl : ([x] : List ℚ).length = 1 := rfl
      rw [hl] at hj
      have hj0 : j = 0 := by omega
      subst hj0
      exact le_refl _
    | cons y t =>
      obtain ⟨ihlt, ihmin⟩ := ih (by simp)
      by_cases hc : x ≤ (y :: t).getD (argminQ (y :: t)) 0
      · have ha : argminQ (x :: y :: t) = 0 := by
          simp only [argminQ]
          rw [if_pos hc]
        rw [ha]
        refine ⟨by simp, ?_⟩
        intro j hj
        cases j with
        | zero => exact le_refl _
        | succ j' =>
          have h2 : (x :: y :: t).getD (j' + 1) 0 = (y :: t).getD j' 0 := rfl
          have h0 : (x :: y :: t).getD 0 0 = x := rfl
          rw [h2, h0]
          exact le_trans hc (ihmin j' (by simpa using hj))
      · have ha : argminQ (x :: y :: t) = argminQ (y :: t) + 1 := by
          simp only [argminQ]
          rw [if_neg hc]
        rw [ha]
        constructor
        · simpa using ihlt
        · intro j hj
          have hgd : (x :: y :: t).getD (argminQ (y :: t) + 1) 0 =
              (y :: t).getD (argminQ (y :: t)) 0 := rfl
          rw [hgd]
          cases j with
          | zero =>
            have h0 : (x :: y :: t).getD 0 0 = x := rfl
            rw [h0]
            exact le_of_lt (not_le.mp hc)
          | succ j' =>
            have h2 : (x :: y :: t).getD (j' + 1) 0 = (y :: t).getD j' 0 := rfl
            rw [h2]
            exact ihmin j' (by simpa using hj)

/-- C4: the fine search of get_refined_period_start. With no matched pass the
coarse estimate is returned unchanged (no -1 applied); with at least one
matched pass the result is `s - 1` for a candidate `s` of
`[coarse - 25, coarse + 25)` whose mean deviation
`mean(|matched_frame - (s + round(timestamp * 10))|)` is minimal over the
candidate range. -/
theorem c4_fine_search (c : ℤ) (matched : List (ℤ × Event)) :
    (matched = [] → get_refined_period_start c matched = c)
    ∧ (matched ≠ [] → ∃ s : ℤ,
        (c - (SEARCH_OFFSET : ℤ) ≤ s ∧ s < c + (SEARCH_OFFSET : ℤ)) ∧
        get_refined_period_start c matched = s - 1 ∧
        ∀ t : ℤ, c - (SEARCH_OFFSET : ℤ) ≤ t → t < c + (SEARCH_OFFSET : ℤ) →
          mean_deviation matched s ≤ mean_deviation matched t) := by
  constructor
  · intro h
    subst h
    rfl
  · intro h
    have hne : matched.isEmpty = false := by
      cases matched with
      | nil => exact absurd rfl h
      | cons m ms => rfl
    simp only [get_refined_period_start, hne, Bool.false_eq_true, if_false]
    rw [filterMap_some_comp (fun s => mean_deviation matched s)]
    rw [List.map_map]
    set F : ℕ → ℚ :=
      (fun s => mean_deviation matched s) ∘
        (fun i : ℕ => c - (SEARCH_OFFSET : ℤ) + (i : ℤ)) with hF
    have hlen : ((List.range (2 * SEARCH_OFFSET)).map F).length = 2 * SEARCH_OFFSET := by
      simp
    have hnonnil : (List.range (2 * SEARCH_OFFSET)).map F ≠ [] := by
      intro hnil
      rw [hnil] at hlen
      simp [SEARCH_OFFSET] at hlen
    obtain ⟨hlt, hmin⟩ := argminQ_spec _ hnonnil
    rw [hlen] at hlt
    set i := argminQ ((List.range (2 * SEARCH_OFFSET)).map F) with hi
    rw [if_neg (by rw [List.isEmpty_iff]; exact hnonnil)]
    refine ⟨c - (SEARCH_OFFSET : ℤ) + (i : ℤ), ⟨by omega, ?_⟩, ?_, ?_⟩
    · have : i < 2 * SEARCH_OFFSET := hlt
      simp only [SEARCH_OFFSET] at this ⊢
      omega
    · rw [getD_rangeMap (fun i : ℕ => c - (SEARCH_OFFSET : ℤ) + (i : ℤ))
        (2 * SEARCH_OFFSET) i 0 hlt]
    · intro t h1 h2
      have hj : (t - (c - (SEARCH_OFFSET : ℤ))).toNat < 2 * SEARCH_OFFSET := by
        simp only [SEARCH_OFFSET] at h1 h2 ⊢
        omega
      have hFi : F i = mean_deviation matched (c - (SEARCH_OFFSET : ℤ) + (i : ℤ)) := rfl
      have harg : c - (SEARCH_OFFSET : ℤ) +
          (((t - (c - (SEARCH_OFFSET : ℤ))).toNat : ℕ) : ℤ) = t := by omega
      have hFj : F ((t - (c - (SEARCH_OFFSET : ℤ))).toNat) = mean_deviation matched t := by
        show mean_deviation matched (c - (SEARCH_OFFSET : ℤ) +
          (((t - (c - (SEARCH_OFFSET : ℤ))).toNat : ℕ) : ℤ)) = mean_deviation matched t
        rw [harg]
      have hm := hmin ((t - (c - (SEARCH_OFFSET : ℤ))).toNat) (by rw [hlen]; exact hj)
      rw [getD_rangeMap F _ _ _ hlt, getD_rangeMap F _ _ _ hj, hFi, hFj] at hm
      exact hm

/-- C4, witness: one matched pass at frame 3 of an event with timestamp 0. -/
theorem c4_witness : ∃ s : ℤ,
    ((0:ℤ) - (SEARCH_OFFSET : ℤ) ≤ s ∧ s < 0 + (SEARCH_OFFSET : ℤ)) ∧
    get_refined_period_start 0 [(3, ev_c4)] = s - 1 ∧
    ∀ t : ℤ, 0 - (SEARCH_OFFSET : ℤ) ≤ t → t < 0 + (SEARCH_OFFSET : ℤ) →
      mean_deviation [(3, ev_c4)] s ≤ mean_deviation [(3, ev_c4)] t :=
  (c4_fine_search 0 [(3, ev_c4)]).2 (by simp)

/-- Helper: inversion of a successful Except bind. -/
theorem except_bind_ok {α β : Type} {x : Except Unit α} {f : α → Except Unit β} {b : β}
    (h : (x >>= f) = .ok b) : ∃ a, x = .ok a ∧ f a = .ok b := by
  cases x with
  | error u => exact Except.noConfusion h
  | ok a => exact ⟨a, rfl, h⟩

/-- Helper: the distance store after one matcher iteration: every cell is
either unchanged or was NaN and now holds the sentinel. -/
theorem process_event_dist (M : FormattedTracking) (e : Event)
    (r : FormattedTracking × MatchFlags) (h : process_event M e = .ok r) :
    ∀ f j, r.1.formatted_dist_ply_ball f j = M.formatted_dist_ply_ball f j
      ∨ (M.formatted_dist_ply_ball f j = none ∧
         r.1.formatted_dist_ply_ball f j = some NAN_DIST) := by
  intro f j
  unfold process_event at h
  cases hlk : lookupIdx M.ply_id_to_idx e.player_id with
  | none =>
    rw [hlk] at h
    obtain ⟨v, hv, h⟩ := except_bind_ok h
    have h2 := Except.ok.inj h
    rw [← h2]
    left
    rfl
  | some p =>
    rw [hlk] at h
    obtain ⟨ipd, hipd, h⟩ := except_bind_ok h
    obtain ⟨ftda, hftda, h⟩ := except_bind_ok h
    have h2 := Except.ok.inj h
    rw [← h2]
    show (add_is_matched_attr M p e.skc_frame).1.formatted_dist_ply_ball f j = _ ∨ _
    simp only [add_is_matched_attr]
    split
    · rename_i hcond
      right
      exact ⟨hcond.2.2.2, rfl⟩
    · left
      rfl

/-- Helper: the same preservation statement over the whole matching run. -/
theorem run_is_matched_dist :
    ∀ (events : List Event) (M : FormattedTracking)
      (r : FormattedTracking × List MatchFlags),
      run_is_matched_process M events = .ok r →
      ∀ f j, r.1.formatted_dist_ply_ball f j = M.formatted_dist_ply_ball f j
        ∨ (M.formatted_dist_ply_ball f j = none ∧
           r.1.formatted_dist_ply_ball f j = some NAN_DIST) := by
  intro events
  induction events with
  | nil =>
    intro M r h f j
    have h2 := Except.ok.inj h
    rw [← h2]
    left
    rfl
  | cons e rest ih =>
    intro M r h f j
    obtain ⟨r1, hpe, h⟩ := except_bind_ok h
    obtain ⟨r2, hrn, h⟩ := except_bind_ok h
    have h2 := Except.ok.inj h
    rw [← h2]
    show r2.1.formatted_dist_ply_ball f j = _ ∨
      (_ ∧ r2.1.formatted_dist_ply_ball f j = some NAN_DIST)
    have step := process_event_dist M e r1 hpe f j
    have tail := ih r1.1 r2 hrn f j
    rcases tail with t1 | ⟨t2, t3⟩
    · rw [t1]
      exact step
    · rcases step with s1 | ⟨s2, s3⟩
      · rw [s1] at t2
        right
        exact ⟨t2, t3⟩
      · rw [s3] at t2
        exact Option.noConfusion t2

/-- C3 (amended): the feature store is not read-only after it is built. The
matching phase may change a dist_ply_ball cell, but only by overwriting a NaN
cell inside a processed event's window with the sentinel 100.0 — numeric
cells are preserved; and the output-assembly phase replaces every NaN of
`ply_formatted_data_speed_acc` with the sentinel -9999.0 (so a NaN speed cell
is no longer NaN afterwards). -/
theorem c3_store_mutation :
    (∀ (M : FormattedTracking) (events : List Event) (f j : ℕ) (v : OFloat),
      (run_is_matched_process M events).map
        (fun r => r.1.formatted_dist_ply_ball f j) = .ok v →
      v = M.formatted_dist_ply_ball f j
        ∨ (M.formatted_dist_ply_ball f j = none ∧ v = some NAN_DIST))
    ∧ (∀ (k : ℕ → ℕ → Kin) (f p : ℕ),
      (k f p).speed = none → (ply_speed_acc_nan_to_num k f p).speed = some NAN_TO_NUM) := by
  constructor
  · intro M events f j v hv
    cases hr : run_is_matched_process M events with
    | error u => rw [hr] at hv; exact Except.noConfusion hv
    | ok r =>
      rw [hr] at hv
      have h2 := Except.ok.inj hv
      rw [← h2]
      exact run_is_matched_dist events M r hr f j
  · intro k f p h
    unfold ply_speed_acc_nan_to_num
    rw [h]
    rfl

/-- C3, witness: the run over the single event succeeds and the NaN cell at
(3, 0) ends up as the sentinel; the nan_to_num pass turns a NaN speed into
-9999.0. -/
theorem c3_witness :
    ((some NAN_DIST : OFloat) = M_c3.formatted_dist_ply_ball 3 0
      ∨ (M_c3.formatted_dist_ply_ball 3 0 = none ∧
         (some NAN_DIST : OFloat) = some NAN_DIST))
    ∧ (ply_speed_acc_nan_to_num k_c3 0 0).speed = some NAN_TO_NUM :=
  ⟨c3_store_mutation.1 M_c3 [ev_c3] 3 0 (some NAN_DIST) (by decide),
   c3_store_mutation.2 k_c3 0 0 rfl⟩

/-- Helper: the value of a normalised Python slice bound, as an integer. -/
theorem pyNorm_cast (len : ℕ) (i : ℤ) :
    ((pyNorm len i : ℕ) : ℤ) = min (max (if i < 0 then i + len else i) 0) (len : ℤ) := by
  unfold pyNorm
  split
  · exact Int.toNat_of_nonneg (by omega)
  · exact Int.toNat_of_nonneg (by omega)

/-- Helper: membership shape of `List.any` over a slice. -/
theorem any_colSlice {α : Type} (g : ℕ → α) (len : ℕ) (a b : ℤ) (p : α → Bool) :
    ((colSlice g len a b).any p = true) ↔
      ∃ j : ℕ, j < pyNorm len b - pyNorm len a ∧ p (g (pyNorm len a + j)) = true := by
  unfold colSlice
  rw [List.any_eq_true]
  constructor
  · rintro ⟨x, hx, hp⟩
    rw [List.mem_map] at hx
    obtain ⟨j, hj, rfl⟩ := hx
    rw [List.mem_range] at hj
    exact ⟨j, hj, hp⟩
  · rintro ⟨j, hj, hp⟩
    exact ⟨g (pyNorm len a + j), List.mem_map.mpr ⟨j, List.mem_range.mpr hj, rfl⟩, hp⟩

/-- Helper: inversion of a successful Except map. -/
theorem except_map_ok {α β : Type} {g : α → β} {x : Except Unit α} {b : β}
    (h : Except.map g x = .ok b) : ∃ a, x = .ok a ∧ g a = b := by
  cases x with
  | error u => exact Except.noConfusion h
  | ok a => exact ⟨a, rfl, Except.ok.inj h⟩

/-- Helper: for skc_frame at least `-MATCH_OFFSET`, the is_matched flag holds
iff some frame of the clamped window `[max(skc-5,0), min(skc+5,F))` has the
player within `TH_IS_MATCHED` of the ball (a NaN distance, treated as the
100.0 sentinel, never matches). -/
theorem add_is_matched_iff (M : FormattedTracking) (p : ℕ) (skc : ℤ)
    (hskc : -(MATCH_OFFSET : ℤ) ≤ skc) :
    ((add_is_matched_attr M p skc).2 = true ↔ ∃ f : ℕ,
      max (skc - (MATCH_OFFSET : ℤ)) 0 ≤ (f : ℤ) ∧
      (f : ℤ) < min (skc + (MATCH_OFFSET : ℤ)) (M.nb_frames : ℤ) ∧
      oLeB (M.formatted_dist_ply_ball f p) TH_IS_MATCHED = true) := by
  have ha0 : (0:ℤ) ≤ max (skc - (MATCH_OFFSET : ℤ)) 0 := le_max_right _ _
  have hb0 : (0:ℤ) ≤ min (skc + (MATCH_OFFSET : ℤ)) (M.nb_frames : ℤ) := by
    rw [le_min_iff]
    exact ⟨by omega, Int.ofNat_nonneg _⟩
  have hbF : min (skc + (MATCH_OFFSET : ℤ)) (M.nb_frames : ℤ) ≤ (M.nb_frames : ℤ) :=
    min_le_right _ _
  have hlo : ((pyNorm M.nb_frames (max (skc - (MATCH_OFFSET : ℤ)) 0) : ℕ) : ℤ) =
      min (max (skc - (MATCH_OFFSET : ℤ)) 0) (M.nb_frames : ℤ) := by
    rw [pyNorm_cast, if_neg (by omega)]
    omega
  have hhi : ((pyNorm M.nb_frames
        (min (skc + (MATCH_OFFSET : ℤ)) (M.nb_frames : ℤ)) : ℕ) : ℤ) =
      min (skc + (MATCH_OFFSET : ℤ)) (M.nb_frames : ℤ) := by
    rw [pyNorm_cast, if_neg (by omega)]
    omega
  simp only [add_is_matched_attr]
  rw [any_colSlice]
  set a := max (skc - (MATCH_OFFSET : ℤ)) 0 with hadef
  set b := min (skc + (MATCH_OFFSET : ℤ)) (M.nb_frames : ℤ) with hbdef
  set lo := pyNorm M.nb_frames a with hlodef
  set hi := pyNorm M.nb_frames b with hhidef
  constructor
  · rintro ⟨j, hj, hcell⟩
    refine ⟨lo + j, by push_cast; omega, by push_cast; omega, ?_⟩
    rcases hmd : M.formatted_dist_ply_ball (lo + j) p with _ | d
    · rw [if_pos ⟨Nat.le_add_right lo j, by omega, trivial, hmd⟩] at hcell
      exact absurd hcell (by decide)
    · rw [if_neg (by
        rintro ⟨-, -, -, hnone⟩
        rw [hmd] at hnone
        exact Option.noConfusion hnone)] at hcell
      rw [hmd] at hcell
      exact hcell
  · rintro ⟨f, hf1, hf2, hcell⟩
    have hjlt : f - lo < hi - lo := by omega
    have hfl : lo + (f - lo) = f := by omega
    refine ⟨f - lo, hjlt, ?_⟩
    rw [hfl]
    rcases hmd : M.formatted_dist_ply_ball f p with _ | d
    · rw [hmd] at hcell
      exact absurd hcell (by decide)
    · rw [if_neg (by
        rintro ⟨-, -, -, hnone⟩
        exact Option.noConfusion hnone)]
      rw [hmd] at hcell
      exact hcell

/-- C5 (amended): a rostered event (looked up in ply_id_to_idx) whose
skc_frame is at least -5 gets is_matched true iff some frame of the window
`[skc_frame - 5, skc_frame + 5)`, clamped to the tracking range, has
dist_ply_ball at most 3.5 m (NaN treated as 100.0); an event whose player is
not rostered gets is_matched false unconditionally. (For skc_frame <= -6 the
Python slice end `skc_frame + 5` is negative and counts from the end of the
array, so the clamped-window reading fails there: see the counterexample.) -/
theorem c5_is_matched_window (M : FormattedTracking) (e : Event) :
    (lookupIdx M.ply_id_to_idx e.player_id = none →
      ∀ b, (run_is_matched_process M [e]).map
        (fun r => (r.2.headD ⟨true, true, true, true⟩).is_matched) = .ok b → b = false)
    ∧ (∀ p, lookupIdx M.ply_id_to_idx e.player_id = some p →
      -(MATCH_OFFSET : ℤ) ≤ e.skc_frame →
      ∀ b, (run_is_matched_process M [e]).map
        (fun r => (r.2.headD ⟨true, true, true, true⟩).is_matched) = .ok b →
      (b = true ↔ ∃ f : ℕ,
        max (e.skc_frame - (MATCH_OFFSET : ℤ)) 0 ≤ (f : ℤ) ∧
        (f : ℤ) < min (e.skc_frame + (MATCH_OFFSET : ℤ)) (M.nb_frames : ℤ) ∧
        oLeB (M.formatted_dist_ply_ball f p) TH_IS_MATCHED = true)) := by
  have hmain : ∀ b : Bool,
      (run_is_matched_process M [e]).map
        (fun r => (r.2.headD ⟨true, true, true, true⟩).is_matched) = .ok b →
      ∃ rr : FormattedTracking × MatchFlags,
        process_event M e = .ok rr ∧ rr.2.is_matched = b := by
    intro b hb
    obtain ⟨r, hr, hgb⟩ := except_map_ok hb
    obtain ⟨r1, hpe, hrest⟩ := except_bind_ok hr
    obtain ⟨r2, hrn, hr3⟩ := except_bind_ok hrest
    have h2 := Except.ok.inj hr3
    have h4 := Except.ok.inj hrn
    refine ⟨r1, hpe, ?_⟩
    rw [← hgb, ← h2]
    rfl
  constructor
  · intro hlk b hb
    obtain ⟨rr, hpe, him⟩ := hmain b hb
    unfold process_event at hpe
    rw [hlk] at hpe
    obtain ⟨v, hv, hr2⟩ := except_bind_ok hpe
    have hreq := Except.ok.inj hr2
    rw [← him, ← hreq]
  · intro p hlk hskc b hb
    obtain ⟨rr, hpe, him⟩ := hmain b hb
    unfold process_event at hpe
    rw [hlk] at hpe
    obtain ⟨ipd, hipd, hr2⟩ := except_bind_ok hpe
    obtain ⟨ftda, hftda, hr3⟩ := except_bind_ok hr2
    have hreq := Except.ok.inj hr3
    rw [← him, ← hreq]
    exact add_is_matched_iff M p e.skc_frame hskc

/-- C5, witness: the rostered event at skc_frame 0 over the 10-frame store
with the player always 1 m from the ball: the matching run succeeds with
is_matched true, and the window characterisation applies. -/
theorem c5_witness :
    (true = true ↔ ∃ f : ℕ,
      max (ev_c5w.skc_frame - (MATCH_OFFSET : ℤ)) 0 ≤ (f : ℤ) ∧
      (f : ℤ) < min (ev_c5w.skc_frame + (MATCH_OFFSET : ℤ)) (M_c5.nb_frames : ℤ) ∧
      oLeB (M_c5.formatted_dist_ply_ball f 0) TH_IS_MATCHED = true) :=
  (c5_is_matched_window M_c5 ev_c5w).2 0 (by decide) (by decide) true (by decide)

/-- Helper: np.nanargmax returns an in-range index. -/
theorem nanargmaxO_lt (w : List OFloat) (i : ℕ) (h : nanargmaxO w = some i) :
    i < w.length := by
  unfold nanargmaxO at h
  split at h
  · exact Option.noConfusion h
  · rename_i m hm
    have h2 := Option.some.inj h
    rw [← h2]
    cases hf : (List.range w.length).filter (fun i => decide (w.getD i none = some m)) with
    | nil =>
      simp only [List.headD_nil]
      cases w with
      | nil => exact absurd hm (by simp [nanmaxO])
      | cons a t => simp
    | cons j t =>
      simp only [List.headD_cons]
      have hmem : j ∈ (List.range w.length).filter
          (fun i => decide (w.getD i none = some m)) := by
        rw [hf]
        exact List.mem_cons_self _ _
      exact List.mem_range.mp (List.mem_filter.mp hmem).1
/-- Helper: the refine index is an index into the window. -/
theorem get_refine_idx_lt (w : List OFloat) (i : ℕ)
    (h : get_refine_idx_in_window w = some i) : i < w.length := by
  simp only [get_refine_idx_in_window] at h
  split at h
  · exact Option.noConfusion h
  · split at h
    · exact Option.noConfusion h
    · split at h
      · exact Option.noConfusion h
      · have h2 := nanargmaxO_lt _ i h
        simpa using h2

/-- Helper: the masked ball-acceleration window is no longer than the slice. -/
theorem get_masked_ball_acc_length (M : FormattedTracking) (a b : ℤ) (mask : List Bool)
    (w : List OFloat) (h : get_masked_ball_acc_window M a b mask = some w) :
    w.length ≤ pyNorm M.nb_frames b - pyNorm M.nb_frames a := by
  simp only [get_masked_ball_acc_window] at h
  split at h
  · exact Option.noConfusion h
  · have h2 := Option.some.inj h
    rw [← h2]
    rw [List.length_zipWith]
    have h3 : (colSlice M.ball_acc_to_refine M.nb_frames a b).length =
        pyNorm M.nb_frames b - pyNorm M.nb_frames a := by
      unfold colSlice
      simp
    rw [h3]
    omega

/-- C7: a skc_frame written by event refinement lies strictly between the
provider frames of the two neighbouring events: the window start is at least
`provider_frame(prev) + 1`, its end is at most `provider_frame(next) - 1`,
and the chosen frame is `window_start + refine_idx` with the index inside the
window. -/
theorem c7_refinement_between_neighbours (M : FormattedTracking) (events : List Event)
    (e eprev enext : Event) (idx : ℕ) (skc : ℤ)
    (h0 : 0 < idx)
    (hp : events.get? (idx - 1) = some eprev)
    (hn : events.get? (idx + 1) = some enext)
    (hr : event_refinement M events e idx = some skc) :
    eprev.provider_frame < skc ∧ skc < enext.provider_frame := by
  have hbefore : get_event_frame_before events idx = eprev.provider_frame := by
    unfold get_event_frame_before
    rw [if_pos h0, hp]
    rfl
  obtain ⟨hlen, -⟩ := List.get?_eq_some.mp hn
  have hafter : get_event_frame_after M events idx = enext.provider_frame := by
    unfold get_event_frame_after
    rw [if_pos (by omega), hn]
    rfl
  have hA : (get_frame_window_start_end M events e idx).1 =
      max (max 0 (e.provider_frame - e.offset_refine))
        (get_event_frame_before events idx + 1) := rfl
  have hB : (get_frame_window_start_end M events e idx).2 =
      min (min (e.provider_frame + e.offset_refine) (M.nb_frames : ℤ))
        (get_event_frame_after M events idx - 1) := rfl
  set A := (get_frame_window_start_end M events e idx).1 with hAdef
  set B := (get_frame_window_start_end M events e idx).2 with hBdef
  have hA0 : 0 ≤ A := by
    rw [hA]
    exact le_trans (le_max_left 0 _) (le_max_left _ _)
  have hAge : eprev.provider_frame + 1 ≤ A := by
    rw [hA, ← hbefore]
    exact le_max_right _ _
  have hBle : B ≤ enext.provider_frame - 1 := by
    rw [hB, ← hafter]
    exact min_le_right _ _
  have hBF : B ≤ (M.nb_frames : ℤ) := by
    rw [hB]
    exact le_trans (min_le_left _ _) (min_le_right _ _)
  simp only [event_refinement] at hr
  split at hr
  · exact Option.noConfusion hr
  · rename_i hguard
    split at hr
    · exact Option.noConfusion hr
    · split at hr
      · exact Option.noConfusion hr
      · split at hr
        · exact Option.noConfusion hr
        · split at hr
          · exact Option.noConfusion hr
          · rename_i ballw hballw
            split at hr
            · exact Option.noConfusion hr
            · rename_i ridx hridx
              have hi := get_refine_idx_lt ballw ridx hridx
              have hlenw := get_masked_ball_acc_length M A B _ ballw hballw
              have hsk := Option.some.inj hr
              have hB1 : 1 ≤ B := by omega
              have hcA : ((pyNorm M.nb_frames A : ℕ) : ℤ) = min (max A 0) (M.nb_frames : ℤ) := by
                rw [pyNorm_cast, if_neg (by omega)]
              have hcB : ((pyNorm M.nb_frames B : ℕ) : ℤ) = min (max B 0) (M.nb_frames : ℤ) := by
                rw [pyNorm_cast, if_neg (by omega)]
              rw [← hsk]
              omega

/-- C7, witness: the refined event between neighbours at provider frames 5 and
25 is moved to frame 21, strictly between them. -/
theorem c7_witness : ev_c7a.provider_frame < 21 ∧ (21:ℤ) < ev_c7b.provider_frame :=
  c7_refinement_between_neighbours M_c7 events_c7 ev_c7 ev_c7a ev_c7b 1 21
    (by decide) rfl rfl (by decide)

/-- C10 (amended): with no declared home_team_side, each period's entry of the
tracking fallback assigns left_to_right to the team whose rostered players
have the strictly smaller nanmean x over the period's frame slice (the other
team getting right_to_left); and an event with known coordinates whose team
has a side in that period is projected to `(round2(-x), round2(-y))` for
right_to_left and `(round2(x), round2(y))` for left_to_right — the code
rounds the projected coordinates to two decimal places. -/
theorem c10_attacking_side_projection :
    (∀ (M : FormattedTracking) (per ps pe : ℕ) (hm am : ℚ),
      (per, (ps, pe)) ∈ M.periods_start_end_dict →
      nanmean (periodTeamXs M ps pe (M.team_id_to_idx_list M.home_team_id)) = some hm →
      nanmean (periodTeamXs M ps pe (M.team_id_to_idx_list M.away_team_id)) = some am →
      ((hm < am → (per, [(M.home_team_id, Side.left_to_right),
          (M.away_team_id, Side.right_to_left)]) ∈
          get_team_id_to_attacking_side_using_tracking M)
       ∧ (am < hm → (per, [(M.home_team_id, Side.right_to_left),
          (M.away_team_id, Side.left_to_right)]) ∈
          get_team_id_to_attacking_side_using_tracking M)))
    ∧ (∀ (M : FormattedTracking) (e : Event) (x y : ℚ) (d : List (Int × Side))
        (t : Int) (s : Side),
      e.x = some x → e.y = some y → e.team_id = some t →
      List.lookup e.period (get_team_id_to_attacking_side M) = some d →
      List.lookup t d = some s →
      get_event_x M e = .ok (some (round2 (if s = Side.right_to_left then -x else x)))
      ∧ get_event_y M e = .ok (some (round2 (if s = Side.right_to_left then -y else y)))) := by
  constructor
  · intro M per ps pe hm am hmem hh ha
    constructor
    · intro hlt
      unfold get_team_id_to_attacking_side_using_tracking
      rw [List.mem_map]
      refine ⟨(per, (ps, pe)), hmem, ?_⟩
      simp only [hh, ha]
      have hb : oLtB (some hm) (some am) = true := decide_eq_true hlt
      rw [hb]
      rfl
    · intro hlt
      unfold get_team_id_to_attacking_side_using_tracking
      rw [List.mem_map]
      refine ⟨(per, (ps, pe)), hmem, ?_⟩
      simp only [hh, ha]
      have hb : oLtB (some hm) (some am) = false := decide_eq_false (lt_asymm hlt)
      rw [hb]
      rfl
  · intro M e x y d t s hx hy ht hld hls
    constructor
    · unfold get_event_x
      simp only [hx, hy, hld, ht, Option.some_bind, hls]
      cases s
      · rfl
      · rfl
    · unfold get_event_y
      simp only [hx, hy, hld, ht, Option.some_bind, hls]
      cases s
      · rfl
      · rfl

/-- C10, witness: home (mean x = 10) attacks right_to_left against away
(mean x = -10); the home event at (10, 5) is projected to (-10, -5). -/
theorem c10_witness :
    ((1, [((1:ℤ), Side.right_to_left), ((2:ℤ), Side.left_to_right)]) ∈
      get_team_id_to_attacking_side_using_tracking M_c10)
    ∧ get_event_x M_c10 ev_c10 = .ok (some (round2 (-(10:ℚ))))
    ∧ get_event_y M_c10 ev_c10 = .ok (some (round2 (-(5:ℚ)))) := by
  refine ⟨(c10_attacking_side_projection.1 M_c10 1 0 2 10 (-10) (by decide) (by decide)
    (by decide)).2 (by norm_num), ?_, ?_⟩
  · exact (c10_attacking_side_projection.2 M_c10 ev_c10 10 5
      [((1:ℤ), Side.right_to_left), ((2:ℤ), Side.left_to_right)] 1 Side.right_to_left
      rfl rfl rfl (by decide) (by decide)).1
  · exact (c10_attacking_side_projection.2 M_c10 ev_c10 10 5
      [((1:ℤ), Side.right_to_left), ((2:ℤ), Side.left_to_right)] 1 Side.right_to_left
      rfl rfl rfl (by decide) (by decide)).2
